import Mathlib

/-!
Verification of the LLM Council backend (`backend/distributed.py`,
`backend/code_council.py`) against its natural-language specification.

The Python code is shallowly embedded: network I/O (HTTP probes, chat
completions) is modelled by explicit oracle arguments giving the outcome of
each request (`Except String _` — an `error` models a raised exception, an
`ok` a decoded response), and each Python function becomes a pure Lean
function of its inputs and oracles.  Wall-clock items (`datetime.now()`,
actual sleeping) are outside the embedding; the retry loop instead returns
the list of sleep durations it would perform, so the fixed-delay property is
statable.
-/

namespace LLMCouncil

/-- Python `str.strip()` whitespace: the exact set of code points for which
CPython's `str.isspace()` holds (U+0009–U+000D, U+001C–U+001F, U+0020,
U+0085, U+00A0, U+1680, U+2000–U+200A, U+2028, U+2029, U+202F, U+205F,
U+3000), which is the set `str.strip()` removes. -/
def isPySpace (c : Char) : Bool :=
  (0x09 ≤ c.toNat && c.toNat ≤ 0x0d) ||
  (0x1c ≤ c.toNat && c.toNat ≤ 0x1f) ||
  c.toNat = 0x20 || c.toNat = 0x85 || c.toNat = 0xa0 || c.toNat = 0x1680 ||
  (0x2000 ≤ c.toNat && c.toNat ≤ 0x200a) ||
  c.toNat = 0x2028 || c.toNat = 0x2029 ||
  c.toNat = 0x202f || c.toNat = 0x205f || c.toNat = 0x3000

/-- Strip leading and trailing Python whitespace from a character list. -/
def stripChars (l : List Char) : List Char :=
  ((l.dropWhile isPySpace).reverse.dropWhile isPySpace).reverse

/-- Python `s.strip()`. -/
def pythonStrip (s : String) : String :=
  String.mk (stripChars s.data)

/-- Split a character list on newline characters.  Mirrors the line
decomposition that `re.MULTILINE` anchors see: `'^'` matches at position 0
and after every newline, `'$'` at the end and before every newline.  Like
Python `s.split("\n")`, the result is never empty. -/
def splitLines : List Char → List (List Char)
  | [] => [[]]
  | c :: cs =>
    if c = '\n' then [] :: splitLines cs
    else
      match splitLines cs with
      | [] => [[c]]
      | l :: ls => (c :: l) :: ls

/-- Re-join lines with newlines, as Python `"\n".join` does (inverse of
`splitLines`). -/
def joinLines : List (List Char) → List Char
  | [] => []
  | [l] => l
  | l :: l' :: ls => l ++ '\n' :: joinLines (l' :: ls)

/-- The fence model is parameterized by the word-character predicate `w`
standing for the regex class `[\w]`.  Python's `\w` on `str` patterns is
Unicode-aware (a character matches iff `str.isalnum()` holds of it or it is
an underscore), a table-driven set that a shallow embedding does not
enumerate; the theorems below therefore quantify over `w`, assuming only
the facts they use (a newline is not a word character — true of Python's
`\w`), so the program's actual predicate is covered as an instance.
`isWordChar` is the restriction of Python's `\w` to the ASCII range; it
agrees with Python's `\w` on every ASCII character and is the instance used
for concrete witnesses and for the pipeline specialization below (the
fence tags the source ever writes itself, e.g. in prompts, are ASCII). -/
def isWordChar (c : Char) : Bool :=
  ('a' ≤ c && c ≤ 'z') || ('A' ≤ c && c ≤ 'Z') || ('0' ≤ c && c ≤ '9') || c = '_'

/-- A line matching the opening-fence body of `r'^```[\w]*\n'`: three
backticks followed by `w`-word characters only. -/
def isOpenFenceW (w : Char → Bool) (line : List Char) : Bool :=
  match line with
  | '`' :: '`' :: '`' :: rest => rest.all w
  | _ => false

/-- The closing-fence line matched by `r'\n```$'`: exactly three backticks. -/
def closeFence : List Char := ['`', '`', '`']

/-- `re.sub(r'^```[\w]*\n', '', s, flags=re.MULTILINE)` on the line
decomposition: with MULTILINE, `^` matches at every line start, and the
pattern consumes the line's own terminating newline, so the substitution
deletes every newline-terminated line of the form ```` ```word ````.  The
final line of the string has no trailing newline and can never match.
(The line decomposition is faithful because `\w` never matches a newline,
so the greedy `[\w]*` cannot cross a line boundary.) -/
def sub1LinesW (w : Char → Bool) : List (List Char) → List (List Char)
  | [] => []
  | [l] => [l]
  | l :: l' :: ls =>
    if isOpenFenceW w l then sub1LinesW w (l' :: ls)
    else l :: sub1LinesW w (l' :: ls)

/-- `re.sub(r'\n```$', '', s, flags=re.MULTILINE)` on the line
decomposition: each match is a newline followed by a line that is exactly
```` ``` ```` (the `$` forbids anything after it on that line), so the
substitution deletes every non-initial line equal to ```` ``` ```` together
with its preceding newline.  The first line has no preceding newline and is
always kept. -/
def sub2Lines : List (List Char) → List (List Char)
  | [] => []
  | l :: ls => l :: ls.filter (fun l2 => l2 ≠ closeFence)

/-- The code-cleaning pipeline applied to every model response in
`generate_initial_code`, `refine_code`, `generate_tests` and
`synthesize_final_code` — `content.strip()`, then the two MULTILINE
`re.sub` calls, then `.strip()` — parameterized by the `[\w]` predicate. -/
def clean_code_contentW (w : Char → Bool) (content : String) : String :=
  pythonStrip (String.mk (joinLines (sub2Lines (sub1LinesW w
    (splitLines (pythonStrip content).data)))))

/-- The cleaning pipeline at the ASCII word-character instance, used by the
embedded council functions; it coincides with the program's cleanup on all
ASCII content. -/
def clean_code_content (content : String) : String :=
  clean_code_contentW isWordChar content

/-- The normalized result dict built by `DistributedLLMClient.query_model`:
`{'content': ..., 'reasoning_details': None, 'node': ..., 'model': ...}`. -/
structure Response where
  content : String
  reasoning_details : Option String := none
  node : String
  model : String
  deriving Repr, DecidableEq

/-- One attempt of the `/chat` POST inside `query_model`'s retry loop.
`error e` models any raised exception (connection error, timeout, non-2xx
status via `raise_for_status`, JSON failure); `ok c` models a decoded
response, where `c` is `data.get("message", {}).get('content')` — `none`
when the content key is missing. -/
def AttemptOutcome : Type := Except String (Option String)

/-- The retry loop of `query_model` (`for attempt in range(MAX_RETRIES + 1)`),
recursing on the number of attempts still allowed.  Besides the result it
returns the number of attempts actually made and the list of sleep durations
performed (`await asyncio.sleep(RETRY_DELAY)` runs after a failed attempt
whenever `attempt < MAX_RETRIES`, i.e. whenever further attempts remain). -/
def queryAttempts (model nodeName : String) (retryDelay : ℚ)
    (net : Nat → AttemptOutcome) :
    Nat → Nat → Option Response × Nat × List ℚ
  | _, 0 => (none, 0, [])
  | attempt, remaining + 1 =>
    match net attempt with
    | .ok content? =>
      (some { content := content?.getD "", reasoning_details := none,
              node := nodeName, model := model }, 1, [])
    | .error _ =>
      let sleeps : List ℚ := if remaining = 0 then [] else [retryDelay]
      let rest := queryAttempts model nodeName retryDelay net (attempt + 1) remaining
      (rest.1, rest.2.1 + 1, sleeps ++ rest.2.2)

/-- `DistributedLLMClient.query_model`.  `routed` is the resolved dispatch
target: `some nodeName` models either an explicit `node_url` override or a
successful `find_node_for_model` lookup, and `none` models
`find_node_for_model` returning `None`, in which case the function returns
`None` without any attempt.  `maxRetries`/`retryDelay` are the configured
`MAX_RETRIES`/`RETRY_DELAY`. -/
def query_model (model : String) (routed : Option String)
    (maxRetries : Nat) (retryDelay : ℚ) (net : Nat → AttemptOutcome) :
    Option Response × Nat × List ℚ :=
  match routed with
  | none => (none, 0, [])
  | some nodeName => queryAttempts model nodeName retryDelay net 0 (maxRetries + 1)

/-- Python-dict assignment `responses[model] = response` on an
insertion-ordered association list: an existing key keeps its position and
gets the new value, a new key is appended. -/
def dictInsert (d : List (String × Option Response)) (k : String)
    (v : Option Response) : List (String × Option Response) :=
  if d.any (fun p => p.1 == k) then
    d.map (fun p => if p.1 == k then (k, v) else p)
  else d ++ [(k, v)]

/-- Outcome of one `query_with_config` task inside
`query_models_parallel`, as observed by `asyncio.gather(...,
return_exceptions=True)`: `ok r` models the task returning the tuple
`(model, r)` where `r` is exactly what that config's own `query_model`
call produced; `error e` models an exception raised inside the task. -/
def TaskOutcome : Type := Except String (Option Response)

/-- `DistributedLLMClient.query_models_parallel`, reduced to the observable
part: `models` are the `"model"` fields of `models_config` in list order,
and `outcome i` is the fate of the i-th task.  The result dict is built by
iterating over the gathered results in task order, assigning
`responses[model] = response` for tuple results and only logging (dropping)
exception results. -/
def query_models_parallel (models : List String)
    (outcome : Nat → TaskOutcome) : List (String × Option Response) :=
  models.enum.foldl
    (fun responses p =>
      match outcome p.1 with
      | .ok r => dictInsert responses p.2 r
      | .error _ => responses)
    []

/-- One entry of the `code_results` list built by `generate_initial_code`,
carried through the pipeline (`model`, `code`, `node`, `iteration`). -/
structure Submission where
  model : String
  code : String
  node : String
  iteration : Nat
  deriving Repr, DecidableEq

/-- One entry of the review results of `review_code_structured`.  The
`parsed_review` field of the source feeds only the refinement prompt text,
which the network oracle abstracts, so it is not carried here. -/
structure ReviewRecord where
  model : String
  review_text : String
  node : String
  deriving Repr, DecidableEq

/-- One entry of the `test_results` list built by `generate_tests`. -/
structure TestResult where
  model : String
  test_code : String
  node : String
  deriving Repr, DecidableEq

/-- The result dict of `synthesize_final_code`. -/
structure SynthResult where
  code : String
  tests : String
  model : String
  node : String
  deriving Repr, DecidableEq

/-- `generate_initial_code`, applied to the response dict returned by
`query_models_parallel` (the prompt text is consumed by the oracle).  For
each `(model, response)` item with a non-`None` response the content is
cleaned and recorded as an iteration-0 submission; `None` responses are
skipped. -/
def generate_initial_code (responses : List (String × Option Response)) :
    List Submission :=
  responses.filterMap (fun p =>
    p.2.map (fun r =>
      { model := p.1, code := clean_code_content r.content,
        node := r.node, iteration := 0 }))

/-- The anonymized labels of `review_code_structured`:
`[chr(65 + i) for i in range(len(code_submissions))]`. -/
def review_labels (n : Nat) : List String :=
  (List.range n).map (fun i => String.mk [Char.ofNat (65 + i)])

/-- `review_code_structured`: assigns labels `A, B, C, ...` to the
submissions in order, builds the `label_to_model` dict by zipping labels
with the submissions' models, and keeps each reviewer's non-`None`
response.  `responses` is the dict returned by the review fan-out. -/
def review_code_structured (code_submissions : List Submission)
    (responses : List (String × Option Response)) :
    List ReviewRecord × List (String × String) :=
  let labels := review_labels code_submissions.length
  let label_to_model :=
    labels.zip (code_submissions.map Submission.model)
  let review_results := responses.filterMap (fun p =>
    p.2.map (fun r =>
      { model := p.1, review_text := r.content, node := r.node }))
  (review_results, label_to_model)

/-- `refine_code`, applied to the submission, the iteration number passed by
the caller, and the dispatched response (the refinement prompt built from
the reviews is consumed by the oracle).  On `None` the original submission
dict is returned as-is (`return code_submission`); on success the spread
`{**code_submission, "code": ..., "iteration": iteration}` keeps every
other field. -/
def refine_code (code_submission : Submission) (iteration : Nat)
    (response : Option Response) : Submission :=
  match response with
  | none => code_submission
  | some r =>
    { code_submission with
      code := clean_code_content r.content, iteration := iteration }

/-- `generate_tests`, applied to the response dict of its fan-out. -/
def generate_tests (responses : List (String × Option Response)) :
    List TestResult :=
  responses.filterMap (fun p =>
    p.2.map (fun r =>
      { model := p.1, test_code := clean_code_content r.content,
        node := r.node }))

/-- `synthesize_final_code`.  `chairmanModel` is the configured
`CHAIRMAN_MODEL`; `response` is the chairman dispatch result.  On `None`
the fallback artifact uses the first submission's code and the first test
set verbatim (empty string when the respective list is empty).  Otherwise
the text is split on the two section markers exactly as
`str.split("FINAL CODE:")` / `str.split("FINAL TESTS:")` do (part index 1 is
the text between the first and second occurrence), and both parts run
through the same cleaning pipeline. -/
def synthesize_final_code (chairmanModel : String)
    (code_submissions : List Submission) (tests : List TestResult)
    (response : Option Response) : SynthResult :=
  match response with
  | none =>
    { code := (code_submissions.head?.map Submission.code).getD ""
      tests := (tests.head?.map TestResult.test_code).getD ""
      model := chairmanModel
      node := "error" }
  | some r =>
    let parts := r.content.splitOn "FINAL CODE:"
    let pair :=
      if 1 < parts.length then
        let rest := parts.getD 1 ""
        let tparts := rest.splitOn "FINAL TESTS:"
        if 1 < tparts.length then (tparts.getD 0 "", tparts.getD 1 "")
        else (rest, "")
      else ("", "")
    { code := clean_code_content pair.1
      tests := clean_code_content pair.2
      model := r.model
      node := r.node }

/-- One element of the `iterations` log of `run_code_council`.  The Python
dict gains a `label_to_model` key only once a review round has run, hence
the `Option`. -/
structure IterationLog where
  iteration : Nat
  code_submissions : List Submission
  reviews : List ReviewRecord
  label_to_model : Option (List (String × String)) := none
  deriving Repr, DecidableEq

/-- The dict returned by `run_code_council`.  The all-failed error payload
has keys `error`, `iterations`, `final_code`, `tests` (no `final_tests`),
and the success payload has no `error` key; both are represented with
`Option` fields. -/
structure CouncilResult where
  error : Option String := none
  iterations : List IterationLog
  final_code : Option String
  final_tests : Option String := none
  tests : List TestResult
  deriving Repr, DecidableEq

/-- A network-visible stage call of `run_code_council`, recorded in order;
used to state which stages a run did (not) attempt. -/
inductive StageCall where
  | generate
  | review (round : Nat)
  | refine (round : Nat) (index : Nat)
  | genTests
  | synthesize
  deriving Repr, DecidableEq

/-- All the network responses one `run_code_council` run can consume:
the generation fan-out dict, the review fan-out dict of each round, the
per-round per-submission refinement dispatch, the test fan-out dict, and
the chairman dispatch. -/
structure Oracles where
  genResponses : List (String × Option Response)
  reviewResponses : Nat → List (String × Option Response)
  refineResponses : Nat → Nat → Option Response
  testResponses : List (String × Option Response)
  chairmanResponse : Option Response

/-- Mutation `iterations[-1]["reviews"] = ...; iterations[-1]["label_to_model"] = ...`:
rewrite the last log entry. -/
def setLastReview : List IterationLog → List ReviewRecord →
    List (String × String) → List IterationLog
  | [], _, _ => []
  | [l], rs, m => [{ l with reviews := rs, label_to_model := some m }]
  | l :: l' :: ls, rs, m => l :: setLastReview (l' :: ls) rs m

/-- One pass of the refinement loop body of `run_code_council` for round
`n`: review the current submissions, store the reviews in the last log
entry, refine each submission with `refine_code(submission, reviews, spec, n)`,
and append a fresh log entry for round `n`. -/
def council_round (o : Oracles)
    (state : List IterationLog × List Submission × List StageCall)
    (n : Nat) : List IterationLog × List Submission × List StageCall :=
  let logs := state.1
  let current := state.2.1
  let tr := state.2.2
  let reviewed := review_code_structured current (o.reviewResponses n)
  let logs2 := setLastReview logs reviewed.1 reviewed.2
  let refined := current.enum.map
    (fun p => refine_code p.2 n (o.refineResponses n p.1))
  (logs2 ++
    [{ iteration := n, code_submissions := refined, reviews := [],
       label_to_model := none }],
   refined,
   tr ++ [StageCall.review n] ++
     current.enum.map (fun p => StageCall.refine n p.1))

/-- `run_code_council`.  Returns the result dict together with the ordered
trace of network stages attempted.  If initial generation yields zero
submissions the structured error payload is returned immediately (only the
generation stage ran); otherwise the loop
`for iteration_num in range(1, max_iterations + 1)` reviews and refines,
one final review pass runs (its oracle round index is `maxIterations + 1`),
tests are generated and the chairman synthesizes. -/
def run_code_council (chairmanModel : String) (o : Oracles)
    (maxIterations : Nat) : CouncilResult × List StageCall :=
  let code_submissions := generate_initial_code o.genResponses
  if code_submissions.isEmpty then
    ({ error := some "All models failed to generate code",
       iterations := [], final_code := none, final_tests := none,
       tests := [] },
     [StageCall.generate])
  else
    let init : List IterationLog × List Submission × List StageCall :=
      ([{ iteration := 0, code_submissions := code_submissions,
          reviews := [], label_to_model := none }],
       code_submissions, [StageCall.generate])
    let looped := (List.range' 1 maxIterations).foldl (council_round o) init
    let final_reviewed :=
      review_code_structured looped.2.1 (o.reviewResponses (maxIterations + 1))
    let logs := setLastReview looped.1 final_reviewed.1 final_reviewed.2
    let tests := generate_tests o.testResponses
    let final_result :=
      synthesize_final_code chairmanModel looped.2.1 tests o.chairmanResponse
    ({ error := none, iterations := logs,
       final_code := some final_result.code,
       final_tests := some final_result.tests, tests := tests },
     looped.2.2 ++ [StageCall.review (maxIterations + 1),
                    StageCall.genTests, StageCall.synthesize])

/-- `NodeHealth` (the `last_check` wall-clock timestamp is outside the
embedding). -/
structure NodeHealth where
  node_name : String
  is_healthy : Bool := true
  last_error : Option String := none
  consecutive_failures : Nat := 0
  available_models : List String := []
  deriving Repr, DecidableEq

/-- The JSON body of a decoded 2xx `/health` response:
`data.get("status")` and the two model-list keys. -/
structure HealthData where
  status : Option String
  available_models : Option (List String) := none
  advertised_models : Option (List String) := none
  deriving Repr, DecidableEq

/-- Outcome of the `/health` GET inside `check_node_health`: `error e`
models any raised exception (timeout, connection error, non-2xx via
`raise_for_status`, JSON failure), `ok d` a decoded 2xx body. -/
def ProbeOutcome : Type := Except String HealthData

/-- `DistributedLLMClient.check_node_health`.  `prev` is the stored health
entry for the node (`self._node_health.get(node.name, NodeHealth(...))`).
A decoded 2xx body sets `is_healthy` to whether its `status` field equals
`"ok"`, clears the error, resets the failure counter and records the
advertised models (`data.get("available_models",
data.get("advertised_models", []))`); any exception marks unhealthy,
stores the error and increments the counter.  The function is total: it
always yields a health value. -/
def check_node_health (prev : Option NodeHealth) (nodeName : String)
    (outcome : ProbeOutcome) : NodeHealth :=
  let health := prev.getD { node_name := nodeName }
  match outcome with
  | .ok data =>
    { health with
      is_healthy := data.status == some "ok"
      last_error := none
      consecutive_failures := 0
      available_models :=
        data.available_models.getD (data.advertised_models.getD []) }
  | .error e =>
    { health with
      is_healthy := false
      last_error := some e
      consecutive_failures := health.consecutive_failures + 1 }

/-- The 26 uppercase letters, the reference point for the label-bijection
property ("labels are exactly the first K letters"). -/
def uppercase_letters : List String :=
  ["A", "B", "C", "D", "E", "F", "G", "H", "I", "J", "K", "L", "M",
   "N", "O", "P", "Q", "R", "S", "T", "U", "V", "W", "X", "Y", "Z"]

/-- Concrete response used in witnesses and counterexamples. -/
def r0 : Response := { content := "code0", node := "n1", model := "m" }

/-- Concrete round-2 refinement response. -/
def r2 : Response := { content := "code2", node := "n1", model := "m" }

/-- Task outcomes in which model index 0's task raises and index 1's task
returns a successful result. -/
def outEx : Nat → TaskOutcome :=
  fun i => if i = 0 then Except.error "boom" else Except.ok (some r0)

/-- Attempt outcomes in which attempt 0 raises and later attempts succeed. -/
def netW : Nat → AttemptOutcome :=
  fun k => if k = 0 then Except.error "e" else Except.ok (some "hi")

/-- Attempt outcomes in which every attempt raises. -/
def netFail : Nat → AttemptOutcome := fun _ => Except.error "down"

/-- A one-model run whose round-1 refinement dispatch fails and whose
round-2 refinement dispatch succeeds. -/
def oC7 : Oracles :=
  { genResponses := [("m", some r0)]
    reviewResponses := fun _ => []
    refineResponses := fun n _ => if n = 1 then none else some r2
    testResponses := []
    chairmanResponse := none }

/-- A run in which every generation response is `None`. -/
def oW : Oracles :=
  { genResponses := [("a", none), ("b", none)]
    reviewResponses := fun _ => []
    refineResponses := fun _ _ => none
    testResponses := []
    chairmanResponse := none }

/-- Concrete submission used in witnesses and counterexamples. -/
def subC6 : Submission := { model := "m", code := "c", node := "n", iteration := 0 }

/-- Concrete submission list for the label-bijection witness. -/
def subsW : List Submission :=
  [{ model := "m1", code := "a", node := "n1", iteration := 0 },
   { model := "m2", code := "b", node := "n2", iteration := 0 },
   { model := "m3", code := "c", node := "n1", iteration := 0 }]

/-- Concrete test list for the synthesis-fallback witness. -/
def testsW : List TestResult :=
  [{ model := "m1", test_code := "t1", node := "n1" },
   { model := "m2", test_code := "t2", node := "n2" }]

/-- A stored health entry with a nonzero failure count and an old error. -/
def prevH : NodeHealth :=
  { node_name := "n", is_healthy := false, last_error := some "old",
    consecutive_failures := 3 }

/-- A decoded 2xx `/health` body whose `status` field is `"degraded"` —
exactly what `node_server.py` returns when its local Ollama is
unreachable. -/
def degradedData : HealthData := { status := some "degraded" }

theorem splitLines_ne_nil (l : List Char) : splitLines l ≠ [] := by
  cases l with
  | nil => simp [splitLines]
  | cons c cs =>
    show (if c = '\n' then [] :: splitLines cs
      else match splitLines cs with
        | [] => [[c]]
        | l :: ls => (c :: l) :: ls) ≠ []
    by_cases h : c = '\n'
    · simp [h]
    · rw [if_neg h]
      cases hs : splitLines cs <;> simp

theorem splitLines_cons_of_ne (c : Char) (cs : List Char) (h : ¬ c = '\n') :
    splitLines (c :: cs) =
      match splitLines cs with
      | [] => [[c]]
      | l :: ls => (c :: l) :: ls := by
  show (if c = '\n' then _ else _) = _
  rw [if_neg h]

theorem joinLines_cons_head (c : Char) (a : List Char) (ls : List (List Char)) :
    joinLines ((c :: a) :: ls) = c :: joinLines (a :: ls) := by
  cases ls with
  | nil => rfl
  | cons b bs => simp [joinLines]

theorem joinLines_splitLines (l : List Char) : joinLines (splitLines l) = l := by
  induction l with
  | nil => rfl
  | cons c cs ih =>
    by_cases h : c = '\n'
    · subst h
      show joinLines (if ('\n' : Char) = '\n' then [] :: splitLines cs else _) = _
      rw [if_pos rfl]
      cases hs : splitLines cs with
      | nil => exact absurd hs (splitLines_ne_nil cs)
      | cons a as =>
        show joinLines ([] :: a :: as) = '\n' :: cs
        show ([] : List Char) ++ '\n' :: joinLines (a :: as) = '\n' :: cs
        rw [List.nil_append, ← hs, ih]
    · rw [splitLines_cons_of_ne c cs h]
      cases hs : splitLines cs with
      | nil => exact absurd hs (splitLines_ne_nil cs)
      | cons a as =>
        show joinLines ((c :: a) :: as) = c :: cs
        rw [joinLines_cons_head, ← hs, ih]

theorem splitLines_no_nl (b : List Char) (hb : ∀ c ∈ b, ¬ c = '\n') :
    splitLines b = [b] := by
  induction b with
  | nil => rfl
  | cons c cs ih =>
    rw [splitLines_cons_of_ne c cs (hb c (List.mem_cons_self c cs))]
    rw [ih (fun d hd => hb d (List.mem_cons_of_mem c hd))]

theorem splitLines_append (a rest : List Char) (ha : ∀ c ∈ a, ¬ c = '\n') :
    splitLines (a ++ '\n' :: rest) = a :: splitLines rest := by
  induction a with
  | nil =>
    show (if ('\n' : Char) = '\n' then [] :: splitLines rest else _) = _
    rw [if_pos rfl]
  | cons c cs ih =>
    rw [List.cons_append,
      splitLines_cons_of_ne c _ (ha c (List.mem_cons_self c cs)),
      ih (fun d hd => ha d (List.mem_cons_of_mem c hd))]

theorem splitLines_append_last (x b : List Char) (hb : ∀ c ∈ b, ¬ c = '\n') :
    splitLines (x ++ '\n' :: b) = splitLines x ++ [b] := by
  induction x with
  | nil =>
    show (if ('\n' : Char) = '\n' then [] :: splitLines b else _) = _
    rw [if_pos rfl, splitLines_no_nl b hb]
    rfl
  | cons c cs ih =>
    by_cases h : c = '\n'
    · subst h
      show (if ('\n' : Char) = '\n' then [] :: splitLines (cs ++ '\n' :: b) else _) =
        (if ('\n' : Char) = '\n' then [] :: splitLines cs else _) ++ [b]
      rw [if_pos rfl, if_pos rfl, ih]
      rfl
    · rw [List.cons_append, splitLines_cons_of_ne c _ h, ih,
        splitLines_cons_of_ne c cs h]
      cases hs : splitLines cs with
      | nil => exact absurd hs (splitLines_ne_nil cs)
      | cons a as => rfl

theorem sub1Lines_of_no_fence (w : Char → Bool) (L : List (List Char))
    (h : ∀ l ∈ L, isOpenFenceW w l = false) : sub1LinesW w L = L := by
  induction L with
  | nil => rfl
  | cons a L ih =>
    cases L with
    | nil => rfl
    | cons b L' =>
      show (if isOpenFenceW w a then sub1LinesW w (b :: L')
        else a :: sub1LinesW w (b :: L')) = _
      rw [h a (List.mem_cons_self a _), if_neg (by simp),
        ih (fun l hl => h l (List.mem_cons_of_mem a hl))]

theorem sub1Lines_append_last (w : Char → Bool) (L : List (List Char)) (z : List Char)
    (h : ∀ l ∈ L, isOpenFenceW w l = false) : sub1LinesW w (L ++ [z]) = L ++ [z] := by
  induction L with
  | nil => rfl
  | cons a L ih =>
    rw [List.cons_append]
    cases hL : L ++ [z] with
    | nil => exact absurd hL (by simp)
    | cons x xs =>
      show (if isOpenFenceW w a then sub1LinesW w (x :: xs)
        else a :: sub1LinesW w (x :: xs)) = _
      rw [h a (List.mem_cons_self a _), if_neg (by simp), ← hL,
        ih (fun l hl => h l (List.mem_cons_of_mem a hl))]

theorem dropWhile_eq_self_of_head (p : Char → Bool) (l : List Char)
    (h : ∀ c, l.head? = some c → p c = false) : l.dropWhile p = l := by
  cases l with
  | nil => rfl
  | cons c cs =>
    rw [List.dropWhile_cons, h c rfl]
    simp

theorem stripChars_eq_self (l : List Char)
    (h1 : ∀ c, l.head? = some c → isPySpace c = false)
    (h2 : ∀ c, l.getLast? = some c → isPySpace c = false) :
    stripChars l = l := by
  unfold stripChars
  rw [dropWhile_eq_self_of_head _ _ h1,
    dropWhile_eq_self_of_head _ _
      (fun c hc => h2 c (by rwa [List.head?_reverse] at hc)),
    List.reverse_reverse]

theorem pythonStrip_eq_self (s : String)
    (h1 : ∀ c, s.data.head? = some c → isPySpace c = false)
    (h2 : ∀ c, s.data.getLast? = some c → isPySpace c = false) :
    pythonStrip s = s :=
  String.ext (stripChars_eq_self s.data h1 h2)

theorem wrapped_data (lang body : String) :
    ("```" ++ lang ++ "\n" ++ body ++ "\n```").data
      = ('`' :: '`' :: '`' :: lang.data) ++ '\n' :: (body.data ++ '\n' :: closeFence) := by
  simp [String.data_append, closeFence]

/-- C4 (amended): the two MULTILINE `re.sub` calls remove fence lines on
every line, not only the wrapper lines: every newline-terminated line of
the form ```` ```word ```` is deleted, and every later line consisting of a
bare ```` ``` ```` is deleted with its preceding newline; surrounding
whitespace is trimmed.  In particular, when the content is exactly one
fenced wrapper around a body containing no fence lines, the result is the
trimmed body.  The theorem holds for EVERY word-character predicate `w`
with `w '\n' = false` — in particular for Python's Unicode-aware `\w`, so
it describes the program's cleanup on all content, ASCII or not. -/
theorem clean_code_content_wrapped (w : Char → Bool) (lang body : String)
    (hwn : w '\n' = false)
    (hlang : ∀ c ∈ lang.data, w c = true)
    (hbody : ∀ l ∈ splitLines body.data, isOpenFenceW w l = false) :
    clean_code_contentW w ("```" ++ lang ++ "\n" ++ body ++ "\n```") = pythonStrip body := by
  have hw : ∀ c ∈ lang.data, ¬ c = '\n' := by
    intro c hc he
    have := hlang c hc
    rw [he, hwn] at this
    exact absurd this (by simp)
  have hdata := wrapped_data lang body
  have hstrip : pythonStrip ("```" ++ lang ++ "\n" ++ body ++ "\n```")
      = "```" ++ lang ++ "\n" ++ body ++ "\n```" := by
    apply pythonStrip_eq_self
    · intro c hc
      rw [hdata] at hc
      simp [List.cons_append] at hc
      rw [← hc]
      decide
    · intro c hc
      rw [← List.head?_reverse, hdata] at hc
      simp [List.reverse_append, closeFence] at hc
      rw [← hc]
      decide
  obtain ⟨l0, rest, hsplit⟩ : ∃ l0 rest, splitLines body.data = l0 :: rest := by
    cases hs : splitLines body.data with
    | nil => exact absurd hs (splitLines_ne_nil _)
    | cons a as => exact ⟨a, as, rfl⟩
  have hA : isOpenFenceW w ('`' :: '`' :: '`' :: lang.data) = true := by
    show lang.data.all w = true
    exact List.all_eq_true.mpr hlang
  show pythonStrip (String.mk (joinLines (sub2Lines (sub1LinesW w
    (splitLines (pythonStrip ("```" ++ lang ++ "\n" ++ body ++ "\n```")).data))))) = _
  rw [hstrip, hdata,
    splitLines_append _ _ (by
      intro c hc
      simp only [List.mem_cons] at hc
      rcases hc with h | h | h | h
      · rw [h]; simp
      · rw [h]; simp
      · rw [h]; simp
      · exact hw c h),
    splitLines_append_last _ _ (by intro c hc; simp [closeFence] at hc; rw [hc]; simp),
    hsplit]
  show pythonStrip (String.mk (joinLines (sub2Lines (sub1LinesW w
    (('`' :: '`' :: '`' :: lang.data) :: l0 :: (rest ++ [closeFence])))))) = _
  rw [show sub1LinesW w (('`' :: '`' :: '`' :: lang.data) :: l0 :: (rest ++ [closeFence]))
      = sub1LinesW w (l0 :: (rest ++ [closeFence])) by
    show (if isOpenFenceW w ('`' :: '`' :: '`' :: lang.data) then _ else _) = _
    rw [hA, if_pos rfl]]
  have hnf : ∀ l ∈ l0 :: rest, isOpenFenceW w l = false := by
    rw [← hsplit]; exact hbody
  rw [show (l0 :: (rest ++ [closeFence])) = (l0 :: rest) ++ [closeFence] by simp,
    sub1Lines_append_last w _ _ hnf]
  show pythonStrip (String.mk (joinLines (sub2Lines (l0 :: (rest ++ [closeFence]))))) = _
  rw [show sub2Lines (l0 :: (rest ++ [closeFence]))
      = l0 :: ((rest ++ [closeFence]).filter (fun l2 => l2 ≠ closeFence)) from rfl,
    List.filter_append,
    List.filter_eq_self.mpr (fun a ha => by
      have : isOpenFenceW w a = false := hnf a (List.mem_cons_of_mem l0 ha)
      simp only [ne_eq, decide_eq_true_eq]
      intro he
      rw [he, show isOpenFenceW w closeFence = true from rfl] at this
      exact absurd this (by simp)),
    show List.filter (fun l2 => l2 ≠ closeFence) [closeFence] = [] by simp,
    List.append_nil, ← hsplit, joinLines_splitLines]

/-- C4 counterexample: an opening fence marker on an interior line (neither
first nor last) is removed by the code, where the claim says fence markers
appearing elsewhere in the content are left unchanged: cleaning the content
`"x\n` ```` ```py ```` `\ny"` yields `"x\ny"`, not the unchanged content.
The input is all-ASCII, where the pipeline instance `clean_code_content`
agrees with Python's cleanup exactly. -/
theorem clean_code_content_strips_interior_fence :
    clean_code_content "x\n```py\ny" = "x\ny" ∧
    clean_code_content "x\n```py\ny" ≠ "x\n```py\ny" := by
  constructor
  · rfl
  · decide

/-- C4 witness: cleaning a two-line body wrapped in a `py`-tagged fence
yields the body, at the ASCII word-character instance (which agrees with
the program's `\w` on this all-ASCII input). -/
theorem clean_code_content_wrapped_witness :
    isWordChar '\n' = false ∧
    (∀ c ∈ ("py" : String).data, isWordChar c = true) ∧
    (∀ l ∈ splitLines ("let x = 1\nret x" : String).data,
      isOpenFenceW isWordChar l = false) ∧
    clean_code_contentW isWordChar ("```" ++ "py" ++ "\n" ++ "let x = 1\nret x" ++ "\n```")
      = pythonStrip "let x = 1\nret x" :=
  ⟨by decide, by decide, by decide,
   clean_code_content_wrapped isWordChar "py" "let x = 1\nret x"
     (by decide) (by decide) (by decide)⟩

/-- C10 (amended): the cleaning operation is a no-op on content that is
already clean in the operational sense — it contains no fence lines AND
carries no leading/trailing whitespace (`pythonStrip` here implements
Python's exact `str.strip()` whitespace set).  Whitespace-trimming is part
of the operation, so "no fenced wrapper" alone is not enough; see the
counterexample.  The theorem holds for EVERY word-character predicate `w`,
in particular for Python's Unicode-aware `\w`, so it describes the
program's cleanup on all content. -/
theorem clean_code_content_clean_id (w : Char → Bool) (s : String)
    (h1 : pythonStrip s = s)
    (h2 : ∀ l ∈ splitLines s.data, isOpenFenceW w l = false) :
    clean_code_contentW w s = s := by
  obtain ⟨l0, rest, hsplit⟩ : ∃ l0 rest, splitLines s.data = l0 :: rest := by
    cases hs : splitLines s.data with
    | nil => exact absurd hs (splitLines_ne_nil _)
    | cons a as => exact ⟨a, as, rfl⟩
  show pythonStrip (String.mk (joinLines (sub2Lines (sub1LinesW w
    (splitLines (pythonStrip s).data))))) = s
  rw [h1, sub1Lines_of_no_fence w _ h2, hsplit]
  rw [show sub2Lines (l0 :: rest) = l0 :: rest.filter (fun l2 => l2 ≠ closeFence) from rfl,
    List.filter_eq_self.mpr (fun a ha => by
      have : isOpenFenceW w a = false := by
        apply h2
        rw [hsplit]
        exact List.mem_cons_of_mem l0 ha
      simp only [ne_eq, decide_eq_true_eq]
      intro he
      rw [he, show isOpenFenceW w closeFence = true from rfl] at this
      exact absurd this (by simp)),
    ← hsplit, joinLines_splitLines]
  exact h1

/-- C10 counterexample: `" x"` contains no fenced-block wrapper, yet the
cleaning operation changes it (to `"x"`), because the operation also trims
whitespace; so "no fenced wrapper" alone does not make it a no-op. -/
theorem clean_code_content_trims_counterexample :
    clean_code_content " x" = "x" ∧ clean_code_content " x" ≠ " x" := by
  constructor
  · rfl
  · decide

/-- C10 witness: the fence-free, trimmed content `"x\ny"` is unchanged, at
the ASCII word-character instance (which agrees with the program's `\w` on
this all-ASCII input). -/
theorem clean_code_content_clean_id_witness :
    pythonStrip "x\ny" = "x\ny" ∧
    clean_code_contentW isWordChar "x\ny" = "x\ny" :=
  ⟨by decide, clean_code_content_clean_id isWordChar "x\ny" (by decide) (by decide)⟩

theorem queryAttempts_count_le (m nn : String) (rd : ℚ) (net : Nat → AttemptOutcome) :
    ∀ rem a, (queryAttempts m nn rd net a rem).2.1 ≤ rem := by
  intro rem
  induction rem with
  | zero => intro a; simp [queryAttempts]
  | succ r ih =>
    intro a
    show (queryAttempts m nn rd net a (r + 1)).2.1 ≤ r + 1
    rw [queryAttempts]
    cases net a with
    | ok c => simp
    | error e =>
      simp only []
      exact Nat.add_le_add_right (ih (a + 1)) 1

theorem queryAttempts_sleeps (m nn : String) (rd : ℚ) (net : Nat → AttemptOutcome) :
    ∀ rem a, ∀ d ∈ (queryAttempts m nn rd net a rem).2.2, d = rd := by
  intro rem
  induction rem with
  | zero => intro a d hd; simp [queryAttempts] at hd
  | succ r ih =>
    intro a d hd
    rw [queryAttempts] at hd
    cases hna : net a with
    | ok c =>
      rw [hna] at hd
      simp at hd
    | error e =>
      rw [hna] at hd
      simp only [List.mem_append] at hd
      rcases hd with h | h
      · by_cases hr : r = 0
        · simp [hr] at h
        · simp [hr] at h
          exact h
      · exact ih (a + 1) d h

theorem queryAttempts_all_fail (m nn : String) (rd : ℚ) (net : Nat → AttemptOutcome) :
    ∀ rem a, (∀ k, a ≤ k → k < a + rem → ∃ e, net k = Except.error e) →
      (queryAttempts m nn rd net a rem).1 = none := by
  intro rem
  induction rem with
  | zero => intro a _; rfl
  | succ r ih =>
    intro a h
    obtain ⟨e, he⟩ := h a (Nat.le_refl a) (by omega)
    rw [queryAttempts, he]
    exact ih (a + 1) (fun k hk1 hk2 => h k (by omega) (by omega))

theorem queryAttempts_first_success (m nn : String) (rd : ℚ) (net : Nat → AttemptOutcome) :
    ∀ rem a k c, a ≤ k → k < a + rem → net k = Except.ok c →
      (∀ j, a ≤ j → j < k → ∃ e, net j = Except.error e) →
      (queryAttempts m nn rd net a rem).1 =
        some { content := c.getD "", reasoning_details := none, node := nn, model := m } := by
  intro rem
  induction rem with
  | zero => intro a k c h1 h2; omega
  | succ r ih =>
    intro a k c h1 h2 hok hfail
    by_cases hk : k = a
    · subst hk
      rw [queryAttempts, hok]
    · obtain ⟨e, he⟩ := hfail a (Nat.le_refl a) (by omega)
      rw [queryAttempts, he]
      exact ih (a + 1) k c (by omega) (by omega) hok
        (fun j hj1 hj2 => hfail j (by omega) hj2)

/-- C2: `query_model` makes at most `MAX_RETRIES + 1` attempts, every sleep
between attempts has the fixed duration `RETRY_DELAY`, the first successful
attempt yields the normalized record with the content, the producing node
and the model, and exhausting all attempts yields `none` (a value, not an
exception — the embedding is a total function). -/
theorem query_model_retry_spec (m nn : String) (mr : Nat) (rd : ℚ)
    (net : Nat → AttemptOutcome) :
    (query_model m (some nn) mr rd net).2.1 ≤ mr + 1 ∧
    (∀ d ∈ (query_model m (some nn) mr rd net).2.2, d = rd) ∧
    ((∀ k, k ≤ mr → ∃ e, net k = Except.error e) →
      (query_model m (some nn) mr rd net).1 = none) ∧
    (∀ k c, k ≤ mr → net k = Except.ok c →
      (∀ j, j < k → ∃ e, net j = Except.error e) →
      (query_model m (some nn) mr rd net).1 =
        some { content := c.getD "", reasoning_details := none, node := nn, model := m }) := by
  refine ⟨queryAttempts_count_le m nn rd net (mr + 1) 0,
    queryAttempts_sleeps m nn rd net (mr + 1) 0,
    fun h => queryAttempts_all_fail m nn rd net (mr + 1) 0
      (fun k _ hk => h k (by omega)),
    fun k c hk hok hfail => queryAttempts_first_success m nn rd net (mr + 1) 0 k c
      (Nat.zero_le k) (by omega) hok (fun j _ hj => hfail j hj)⟩

/-- C2 witness: with `MAX_RETRIES = 2`, an oracle failing attempt 0 and
succeeding at attempt 1 yields the normalized record within the attempt
bound, and an always-failing oracle yields `none`. -/
theorem query_model_retry_spec_witness :
    (query_model "m" (some "n") 2 1 netW).1 =
      some { content := "hi", reasoning_details := none, node := "n", model := "m" } ∧
    (query_model "m" (some "n") 2 1 netW).2.1 ≤ 3 ∧
    (query_model "m" (some "n") 1 1 netFail).1 = none :=
  ⟨(query_model_retry_spec "m" "n" 2 1 netW).2.2.2 1 (some "hi") (by omega) rfl
      (fun j hj => ⟨"e", by interval_cases j; rfl⟩),
   (query_model_retry_spec "m" "n" 2 1 netW).1,
   (query_model_retry_spec "m" "n" 1 1 netFail).2.2.1 (fun k _ => ⟨"down", rfl⟩)⟩

theorem dictInsert_of_not_mem (d : List (String × Option Response)) (k : String)
    (v : Option Response) (h : ∀ p ∈ d, p.1 ≠ k) :
    dictInsert d k v = d ++ [(k, v)] := by
  unfold dictInsert
  rw [if_neg]
  simp only [List.any_eq_true, beq_iff_eq, not_exists, not_and]
  exact fun p hp => h p hp

theorem qmp_foldl (outcome : Nat → TaskOutcome) :
    ∀ (l : List (Nat × String)) (d : List (String × Option Response)),
      (l.map Prod.snd).Nodup → (∀ p ∈ d, p.1 ∉ l.map Prod.snd) →
      l.foldl (fun responses q =>
          match outcome q.1 with
          | .ok r => dictInsert responses q.2 r
          | .error _ => responses) d
        = d ++ l.filterMap (fun q => (outcome q.1).toOption.map (fun r => (q.2, r))) := by
  intro l
  induction l with
  | nil => intro d _ _; simp
  | cons q l ih =>
    intro d hn hd
    rw [List.foldl_cons]
    cases ho : outcome q.1 with
    | ok r =>
      show List.foldl (fun responses q =>
          match outcome q.1 with
          | Except.ok r => dictInsert responses q.2 r
          | Except.error _ => responses) (dictInsert d q.2 r) l
        = d ++ List.filterMap
            (fun q => Option.map (fun r => (q.2, r)) (Except.toOption (outcome q.1))) (q :: l)
      rw [dictInsert_of_not_mem d q.2 r
        (fun p hp => by
          have := hd p hp
          simp only [List.map_cons, List.mem_cons] at this
          exact fun he => this (Or.inl he))]
      rw [ih (d ++ [(q.2, r)])
        (by
          simp only [List.map_cons] at hn
          exact hn.of_cons)
        (by
          intro p hp
          rcases List.mem_append.mp hp with h | h
          · have := hd p h
            simp only [List.map_cons, List.mem_cons] at this
            exact fun hm => this (Or.inr hm)
          · simp only [List.mem_singleton] at h
            subst h
            simp only [List.map_cons] at hn
            exact (List.nodup_cons.mp hn).1)]
      simp [ho, List.filterMap_cons, Except.toOption]
    | error e =>
      show List.foldl (fun responses q =>
          match outcome q.1 with
          | Except.ok r => dictInsert responses q.2 r
          | Except.error _ => responses) d l
        = d ++ List.filterMap
            (fun q => Option.map (fun r => (q.2, r)) (Except.toOption (outcome q.1))) (q :: l)
      rw [ih d
        (by simp only [List.map_cons] at hn; exact hn.of_cons)
        (by
          intro p hp
          have := hd p hp
          simp only [List.map_cons, List.mem_cons] at this
          exact fun hm => this (Or.inr hm))]
      simp [ho, List.filterMap_cons, Except.toOption]

/-- C1 (amended): for distinct requested model names, the result map of
`query_models_parallel` contains exactly the models whose task returned a
tuple — each mapped to precisely the result its own `query_model` call
produced (sibling isolation) — while a model whose task raised an exception
is ABSENT from the map rather than present with a `none` value (the
exception branch only logs and skips the assignment). -/
theorem query_models_parallel_characterization (models : List String)
    (outcome : Nat → TaskOutcome) (h : models.Nodup) :
    query_models_parallel models outcome
      = models.enum.filterMap
          (fun q => (outcome q.1).toOption.map (fun r => (q.2, r))) := by
  unfold query_models_parallel
  rw [qmp_foldl outcome models.enum []
    (by rw [List.enum_map_snd]; exact h)
    (by intro p hp; simp at hp)]
  simp

/-- C1 counterexample: with two requested models where model `"a"`'s task
raises and model `"b"`'s task returns a result, the result map has NO entry
for `"a"` at all — the claim instead requires every requested model to
appear, with `none` for the raising task.  The sibling `"b"` still maps to
exactly its own result. -/
theorem query_models_parallel_counterexample :
    "a" ∉ (query_models_parallel ["a", "b"] outEx).map Prod.fst ∧
    List.lookup "b" (query_models_parallel ["a", "b"] outEx) = some (some r0) := by
  constructor
  · decide
  · rfl

/-- C1 witness: the characterization evaluated at the concrete two-model
oracle. -/
theorem query_models_parallel_characterization_witness :
    (["a", "b"] : List String).Nodup ∧
    query_models_parallel ["a", "b"] outEx
      = (["a", "b"] : List String).enum.filterMap
          (fun q => (outEx q.1).toOption.map (fun r => (q.2, r))) :=
  ⟨by decide, query_models_parallel_characterization ["a", "b"] outEx (by decide)⟩

/-- C3: when every generation response is `None`, `run_code_council`
returns the structured error payload (error message, empty iteration list,
no final code, empty tests) and its stage trace contains only the
generation stage: review, test generation and synthesis are never
attempted, and the embedding is a total function (no exception). -/
theorem run_code_council_all_models_failed (cm : String) (o : Oracles) (maxIter : Nat)
    (h : ∀ p ∈ o.genResponses, p.2 = none) :
    run_code_council cm o maxIter =
      ({ error := some "All models failed to generate code", iterations := [],
         final_code := none, final_tests := none, tests := [] },
       [StageCall.generate]) := by
  have hemp : generate_initial_code o.genResponses = [] :=
    List.filterMap_eq_nil_iff.mpr (fun p hp => by rw [h p hp]; rfl)
  unfold run_code_council
  rw [hemp]
  rfl

/-- C3 witness: a two-model run in which both generation responses are
`None`. -/
theorem run_code_council_all_models_failed_witness :
    run_code_council "ch" oW 2 =
      ({ error := some "All models failed to generate code", iterations := [],
         final_code := none, final_tests := none, tests := [] },
       [StageCall.generate]) :=
  run_code_council_all_models_failed "ch" oW 2 (by decide)

theorem review_labels_take : ∀ n < 27, review_labels n = uppercase_letters.take n := by
  decide

/-- C5: for a non-empty list of K ≤ 26 submissions, the review labels are
exactly the first K uppercase letters in generation order, pairwise
distinct, and the `label_to_model` pairing zips them positionally with the
submissions (K entries whose values are the submissions' models in order) —
a bijection between labels and that round's submissions. -/
theorem review_label_bijection (subs : List Submission)
    (responses : List (String × Option Response))
    (h1 : subs ≠ []) (h2 : subs.length ≤ 26) :
    ((review_code_structured subs responses).2.map Prod.fst
        = uppercase_letters.take subs.length) ∧
    ((review_code_structured subs responses).2.map Prod.fst).Nodup ∧
    ((review_code_structured subs responses).2.map Prod.snd
        = subs.map Submission.model) ∧
    (review_code_structured subs responses).2.length = subs.length := by
  have hlen : (review_labels subs.length).length = subs.length := by
    simp [review_labels]
  have hfst : (review_code_structured subs responses).2.map Prod.fst
      = review_labels subs.length := by
    show ((review_labels subs.length).zip (subs.map Submission.model)).map Prod.fst = _
    exact List.map_fst_zip _ _ (by simp [hlen])
  have htake := review_labels_take subs.length (by omega)
  refine ⟨by rw [hfst, htake], ?_, ?_, ?_⟩
  · rw [hfst, htake]
    exact (List.take_sublist _ _).nodup (by decide)
  · show ((review_labels subs.length).zip (subs.map Submission.model)).map Prod.snd = _
    exact List.map_snd_zip _ _ (by simp [hlen])
  · show ((review_labels subs.length).zip (subs.map Submission.model)).length = _
    simp [hlen]

/-- C5 witness: three submissions receive the labels A, B, C mapped to
their models in order. -/
theorem review_label_bijection_witness :
    ((review_code_structured subsW []).2.map Prod.fst
        = uppercase_letters.take subsW.length) ∧
    ((review_code_structured subsW []).2.map Prod.snd = subsW.map Submission.model) :=
  ⟨(review_label_bijection subsW [] (by decide) (by decide)).1,
   (review_label_bijection subsW [] (by decide) (by decide)).2.2.1⟩

/-- C6 counterexample: when refinement dispatch fails, `refine_code`
returns the previous submission with its content unchanged but ALSO with
its iteration index unchanged (still 0), not incremented to 1 as the claim
requires. -/
theorem refine_code_failure_counterexample :
    (refine_code subC6 1 none).code = subC6.code ∧
    (refine_code subC6 1 none).iteration = 0 ∧
    (refine_code subC6 1 none).iteration ≠ subC6.iteration + 1 := by
  decide

/-- C6 (amended): on dispatch failure `refine_code` returns the previous
submission entirely unchanged — content carried forward, never dropped,
and the iteration index is NOT incremented (`return code_submission`). -/
theorem refine_code_failure_identity (sub : Submission) (iteration : Nat) :
    refine_code sub iteration none = sub := rfl

/-- C7 counterexample: in a two-round run whose round-1 refinement dispatch
fails and whose round-2 dispatch succeeds, the successfully refined
submission jumps from iteration 0 to iteration 2 — not "prior iteration
plus one".  The logged per-round iteration indices are `[[0], [0], [2]]`
and the round-2 dispatch did succeed. -/
theorem refine_code_iteration_jump_counterexample :
    ((run_code_council "ch" oC7 2).1.iterations.map
        (fun l => l.code_submissions.map Submission.iteration) = [[0], [0], [2]]) ∧
    oC7.refineResponses 2 0 = some r2 ∧
    (2 : Nat) ≠ 0 + 1 :=
  ⟨rfl, rfl, by decide⟩

/-- C7 (amended): on successful dispatch the refined submission keeps the
original's model and node (and every field other than code and iteration),
its code is the cleaned response content, and its iteration index is set to
the round number passed by the pipeline — which equals the prior iteration
plus one exactly when the prior iteration is one less than the round (the
failure-free case). -/
theorem refine_code_success_fields (sub : Submission) (iteration : Nat) (r : Response) :
    (refine_code sub iteration (some r)).model = sub.model ∧
    (refine_code sub iteration (some r)).node = sub.node ∧
    (refine_code sub iteration (some r)).code = clean_code_content r.content ∧
    (refine_code sub iteration (some r)).iteration = iteration ∧
    (sub.iteration + 1 = iteration →
      (refine_code sub iteration (some r)).iteration = sub.iteration + 1) :=
  ⟨rfl, rfl, rfl, rfl, fun h => by rw [← h]; rfl⟩

/-- C7 witness: a round-1 refinement of an iteration-0 submission preserves
the model and increments the iteration to 1. -/
theorem refine_code_success_fields_witness :
    (refine_code subC6 1 (some r2)).model = subC6.model ∧
    (refine_code subC6 1 (some r2)).iteration = subC6.iteration + 1 :=
  ⟨(refine_code_success_fields subC6 1 r2).1,
   (refine_code_success_fields subC6 1 r2).2.2.2.2 (by decide)⟩

/-- C8: when the chairman dispatch returns `None`, `synthesize_final_code`
falls back to the first final submission's content verbatim and the first
generated test set verbatim, with empty strings only when the respective
lists are empty; the embedding is a total function (no exception). -/
theorem synthesize_final_code_fallback (cm : String) (subs : List Submission)
    (tests : List TestResult) :
    (synthesize_final_code cm subs tests none).code
        = (subs.head?.map Submission.code).getD "" ∧
    (synthesize_final_code cm subs tests none).tests
        = (tests.head?.map TestResult.test_code).getD "" ∧
    (∀ s ss, subs = s :: ss → (synthesize_final_code cm subs tests none).code = s.code) ∧
    (∀ t ts, tests = t :: ts → (synthesize_final_code cm subs tests none).tests = t.test_code) ∧
    (subs = [] → (synthesize_final_code cm subs tests none).code = "") ∧
    (tests = [] → (synthesize_final_code cm subs tests none).tests = "") :=
  ⟨rfl, rfl,
   fun s ss hs => by rw [hs]; rfl,
   fun t ts ht => by rw [ht]; rfl,
   fun hs => by rw [hs]; rfl,
   fun ht => by rw [ht]; rfl⟩

/-- C8 witness: the fallback at a concrete one-submission, two-test-set
state. -/
theorem synthesize_final_code_fallback_witness :
    (synthesize_final_code "mistral" [subC6] testsW none).code = subC6.code ∧
    (synthesize_final_code "mistral" [subC6] testsW none).tests
      = ({ model := "m1", test_code := "t1", node := "n1" } : TestResult).test_code :=
  ⟨(synthesize_final_code_fallback "mistral" [subC6] testsW).2.2.1 subC6 [] rfl,
   (synthesize_final_code_fallback "mistral" [subC6] testsW).2.2.2.1
     { model := "m1", test_code := "t1", node := "n1" }
     [{ model := "m2", test_code := "t2", node := "n2" }] rfl⟩

/-- C9 counterexample: a decoded 2xx `/health` body with status
`"degraded"` (which `node_server.py` actually returns when its Ollama is
down) sets `is_healthy` to false — so it is not the claim's "successful
probe" — yet RESETS the consecutive-failure counter to 0 and CLEARS the
error — so it is not the claim's "failure" behavior either; the claim's
two-case taxonomy does not match the code. -/
theorem check_node_health_degraded_counterexample :
    (check_node_health (some prevH) "n" (Except.ok degradedData)).is_healthy = false ∧
    (check_node_health (some prevH) "n" (Except.ok degradedData)).consecutive_failures = 0 ∧
    (check_node_health (some prevH) "n" (Except.ok degradedData)).last_error = none := by
  decide

/-- C9 (amended): the probe is a total function (never raises, always
yields a health value); any decoded 2xx body sets `is_healthy` to whether
the reported status is `"ok"` (true for an ok status), resets the failure
counter, clears the error and records the advertised models — even when
the reported status is not `"ok"` — while any exception (timeout,
connection error, non-2xx) marks unhealthy, increments the counter, stores
the error and leaves the recorded models unchanged. -/
theorem check_node_health_spec (prev : Option NodeHealth) (nn : String)
    (outcome : ProbeOutcome) :
    (∀ d, outcome = Except.ok d →
      (check_node_health prev nn outcome).is_healthy = (d.status == some "ok") ∧
      (check_node_health prev nn outcome).consecutive_failures = 0 ∧
      (check_node_health prev nn outcome).last_error = none ∧
      (check_node_health prev nn outcome).available_models
        = d.available_models.getD (d.advertised_models.getD []) ∧
      (d.status = some "ok" → (check_node_health prev nn outcome).is_healthy = true)) ∧
    (∀ e, outcome = Except.error e →
      (check_node_health prev nn outcome).is_healthy = false ∧
      (check_node_health prev nn outcome).last_error = some e ∧
      (check_node_health prev nn outcome).consecutive_failures
        = (prev.getD { node_name := nn }).consecutive_failures + 1 ∧
      (check_node_health prev nn outcome).available_models
        = (prev.getD { node_name := nn }).available_models) := by
  constructor
  · intro d hd
    subst hd
    refine ⟨rfl, rfl, rfl, rfl, fun hs => by simp [check_node_health, hs]⟩
  · intro e he
    subst he
    exact ⟨rfl, rfl, rfl, rfl⟩

/-- C9 witness: an ok-status probe marks the node healthy, and a timeout
increments the stored failure counter. -/
theorem check_node_health_spec_witness :
    (check_node_health (some prevH) "n"
        (Except.ok { status := some "ok", available_models := some ["m1"] })).is_healthy = true ∧
    (check_node_health (some prevH) "n" (Except.error "timeout")).consecutive_failures
      = prevH.consecutive_failures + 1 :=
  ⟨((check_node_health_spec (some prevH) "n"
      (Except.ok { status := some "ok", available_models := some ["m1"] })).1
      { status := some "ok", available_models := some ["m1"] } rfl).2.2.2.2 rfl,
   ((check_node_health_spec (some prevH) "n" (Except.error "timeout")).2
      "timeout" rfl).2.2.1⟩

end LLMCouncil
